import Mathlib

/-!
Shallow embedding of `feeds-checker.go` from hhru/feed-monitoring.

The program keeps two global maps, `info : map[string]FeedInfo` and
`updaters : map[string]time.Time`.  An HTTP handler (`feedInfoHandler`)
admits feeds into the tracking registry (bounded by `FeedsLimit`),
spawns one background worker per tracked feed, and serves cached state.
Each worker tick calls `updateInfoIfNeed`, which probes the stat sidecar
(`getFeedSize`) and, when the size marker changed, recounts vacancies
(`countVacancies`).

Go maps are embedded as association lists over `String`; `time.Time` is
embedded as `Nat` nanoseconds, where `0` is the zero time (`IsZero`).
The outcome of external HTTP fetches is an explicit oracle input to each
function.  A Go runtime panic is modelled by the `GoResult.panicked`
constructor, since `getFeedSize` dereferences `FindSubmatch`'s result
without a nil check.
-/

set_option autoImplicit false

namespace FeedMonitoring

/-- Association-list lookup, the embedding of a Go map read `m[k]` with its
`ok` flag: `some v` when present, `none` when absent. -/
def lookupA {α : Type} : List (String × α) → String → Option α
  | [], _ => none
  | (k, v) :: t, key => if k = key then some v else lookupA t key

/-- Association-list insert, the embedding of a Go map write `m[k] = v`:
replaces the entry in place when the key is present, appends otherwise. -/
def insertA {α : Type} : List (String × α) → String → α → List (String × α)
  | [], key, v => [(key, v)]
  | (k, w) :: t, key, v => if k = key then (key, v) :: t else (k, w) :: insertA t key v

/-- Association-list erase, the embedding of Go `delete(m, k)`. -/
def eraseA {α : Type} : List (String × α) → String → List (String × α)
  | [], _ => []
  | (k, w) :: t, key => if k = key then eraseA t key else (k, w) :: eraseA t key

/-- The `FeedInfo` struct: raw stat payload, size marker, last vacancy count,
and the first-failure time (`0` = Go's zero `time.Time`). -/
structure FeedInfo where
  Stat : String
  Size : String
  VacanciesCount : Int
  FailureSince : Nat
deriving DecidableEq

/-- The `FeedsLimit` constant: at most 32 feeds are tracked. -/
def FeedsLimit : Nat := 32

/-- Six hours (`6 * time.Hour`) in nanoseconds, the unit of Go durations. -/
def sixHours : Nat := 6 * 60 * 60 * 1000000000

/-- The result of running a piece of Go code that may panic. -/
inductive GoResult (α : Type) where
  | panicked
  | value (a : α)
deriving DecidableEq

/-- The outcome of `http.Get` on the stat sidecar URL, as seen by
`getFeedSize`: a transport error, a body-read error after a status check,
or a fully read response with its status code and body. -/
inductive FetchResult where
  | transportError
  | readError (status : Nat) (partBody : String)
  | response (status : Nat) (body : String)
deriving DecidableEq

/-- Match the regular expression `size:(\d+) bytes` at the head of the
character list, returning the captured digit group. -/
def matchSizeAt : List Char → Option (List Char)
  | 's' :: 'i' :: 'z' :: 'e' :: ':' :: rest =>
    let ds := rest.takeWhile Char.isDigit
    if ds.isEmpty then none
    else
      match rest.dropWhile Char.isDigit with
      | ' ' :: 'b' :: 'y' :: 't' :: 'e' :: 's' :: _ => some ds
      | _ => none
  | _ => none

/-- Scan left to right for the first position where `size:(\d+) bytes`
matches, as Go's `regexp.FindSubmatch` does. -/
def findSizeChars : List Char → Option (List Char)
  | [] => none
  | c :: cs =>
    match matchSizeAt (c :: cs) with
    | some ds => some ds
    | none => findSizeChars cs

/-- The first capture of `size:(\d+) bytes` in a body, or `none` when the
pattern does not occur (in which case `FindSubmatch` returns nil). -/
def findSizeMarker (s : String) : Option String :=
  (findSizeChars s.data).map fun ds => String.mk ds

/-- Function `getFeedSize`: fetch `url + "?stat"` and extract the size marker.
A transport error, a read error, or a status `>= 300` returns an empty
size marker.  When the body lacks the `size:(\d+) bytes` pattern the Go
code evaluates `re.FindSubmatch(stat)[1]` on a nil slice and panics. -/
def getFeedSize : FetchResult → GoResult (String × String)
  | .transportError => .value ("", "")
  | .readError status partBody =>
    if 300 ≤ status then .value ("", "") else .value ("", partBody)
  | .response status body =>
    if 300 ≤ status then .value ("", "")
    else
      match findSizeMarker body with
      | none => .panicked
      | some ds => .value (ds, body)

/-- Function `feedIsAlive`: the liveness precheck, true when the probe yields a
non-empty size marker. -/
def feedIsAlive (f : FetchResult) : GoResult Bool :=
  match getFeedSize f with
  | .panicked => .panicked
  | .value (size, _) => .value (decide (size ≠ ""))

/-- One XML token delivered by `decoder.Token()` before the stream ends. -/
inductive XmlToken where
  | startElement (localName : String)
  | endElement (localName : String)
  | charData (s : String)
deriving DecidableEq

/-- The outcome of fetching and decoding the archive URL, as seen by
`countVacancies`: a transport error, a gzip header that
`gzip.NewReader` rejects, or a token stream.  The Bool records whether
the token loop stopped because `decoder.Token()` returned an error
rather than a clean EOF; the Go code discards that error (`t, _ :=`). -/
inductive ArchiveFetch where
  | transportError
  | badGzip
  | stream (tokens : List XmlToken) (endedWithError : Bool)
deriving DecidableEq

/-- The two error paths that `countVacancies` actually reports. -/
inductive CountError where
  | fetchFailed
  | gzipFailed
deriving DecidableEq

deriving instance DecidableEq for Except

/-- The token loop of `countVacancies`: count start elements whose local
name is `"vacancy"`. -/
def countLoop : List XmlToken → Int
  | [] => 0
  | t :: ts =>
    (match t with
     | .startElement n => if n = "vacancy" then (1 : Int) else 0
     | _ => 0) + countLoop ts

/-- Function `countVacancies`: fetch the archive, decompress, and count `vacancy`
start tags.  Fetch errors and bad gzip headers are returned as errors;
the token loop runs until `decoder.Token()` returns nil and ignores how
the stream ended. -/
def countVacancies : ArchiveFetch → Except CountError Int
  | .transportError => .error .fetchFailed
  | .badGzip => .error .gzipFailed
  | .stream ts _ => .ok (countLoop ts)

/-- The outcome of one `updateInfoIfNeed` call: a panic propagated from
`getFeedSize`, a non-nil error, or a nil error. -/
inductive UpdateOutcome where
  | panicked
  | failed
  | succeeded
deriving DecidableEq

/-- The result of `updateInfoIfNeed`: its outcome, the `feeds` map after
the call, and whether `countVacancies` was invoked. -/
structure UpdateResult where
  outcome : UpdateOutcome
  feeds : List (String × FeedInfo)
  countInvoked : Bool
deriving DecidableEq

/-- Function `updateInfoIfNeed`: probe the stat sidecar; on an empty size marker
return an error leaving `feeds` untouched; when the feed is absent or its
stored size marker differs, recount vacancies and on success store a fresh
`FeedInfo` (whose `FailureSince` is the zero value); otherwise return nil
without touching the map. -/
def updateInfoIfNeed (url : String) (feeds : List (String × FeedInfo))
    (statFetch : FetchResult) (archive : ArchiveFetch) : UpdateResult :=
  match getFeedSize statFetch with
  | .panicked => ⟨.panicked, feeds, false⟩
  | .value (size, stat) =>
    if size = "" then ⟨.failed, feeds, false⟩
    else
      match lookupA feeds url with
      | some fi =>
        if fi.Size = size then ⟨.succeeded, feeds, false⟩
        else
          match countVacancies archive with
          | .error _ => ⟨.failed, feeds, true⟩
          | .ok vc => ⟨.succeeded, insertA feeds url ⟨stat, size, vc, 0⟩, true⟩
      | none =>
        match countVacancies archive with
        | .error _ => ⟨.failed, feeds, true⟩
        | .ok vc => ⟨.succeeded, insertA feeds url ⟨stat, size, vc, 0⟩, true⟩

/-- The global state of the program: the `info` map of cached feed data
and the `updaters` map of last-observed times. -/
structure SysState where
  info : List (String × FeedInfo)
  updaters : List (String × Nat)
deriving DecidableEq

/-- How one iteration of the worker goroutine's loop body ends. -/
inductive WorkerOutcome where
  | panicked
  | continues
  | terminated
deriving DecidableEq

/-- One iteration of the per-feed worker goroutine's loop body: call
`updateInfoIfNeed`; on error, log, fiddle a local copy of `info[url]`
(which is never written back) and `continue`; on success, check
`time.Since(updaters[url]) > 6h` and if so delete both map entries and
return. -/
def workerTick (url : String) (statFetch : FetchResult) (archive : ArchiveFetch)
    (now : Nat) (s : SysState) : WorkerOutcome × SysState :=
  match updateInfoIfNeed url s.info statFetch archive with
  | ⟨.panicked, feeds2, _⟩ => (.panicked, ⟨feeds2, s.updaters⟩)
  | ⟨.failed, feeds2, _⟩ => (.continues, ⟨feeds2, s.updaters⟩)
  | ⟨.succeeded, feeds2, _⟩ =>
    if sixHours < now - (lookupA s.updaters url).getD 0 then
      (.terminated, ⟨eraseA feeds2 url, eraseA s.updaters url⟩)
    else
      (.continues, ⟨feeds2, s.updaters⟩)

/-- An HTTP response as accumulated on the `ResponseWriter`: the status
(200 when `WriteHeader` was never called) and the written body. -/
structure HttpResponse where
  status : Nat
  body : String
deriving DecidableEq

/-- The observable effect of one `feedInfoHandler` call: the response,
the state after the call, and whether a new worker goroutine was
spawned. -/
structure HandlerResult where
  response : HttpResponse
  state : SysState
  spawned : Bool
deriving DecidableEq

/-- The fixed diagnostic written before the payload on the 417 path. -/
def staleMsg : String := "information could not be obtained for more than 6 hours"

/-- The success-style payload `"<rawStat>, vacanciesCount: <count>"`. -/
def feedPayload (fi : FeedInfo) : String :=
  fi.Stat ++ ", vacanciesCount: " ++ toString fi.VacanciesCount

/-- The body of the 402 capacity response: the header line followed by
each tracked URL on its own line. -/
def limitBody (updaters : List (String × Nat)) : String :=
  "Feeds limit (" ++ toString FeedsLimit ++ ") is exhausted:\n" ++
    String.join (updaters.map fun p => p.1 ++ "\n")

/-- The tail of `feedInfoHandler` after the admission logic, operating on
the state `s2` in which `updaters[url]` has been stamped: 202 when no
cached state exists; otherwise, when `FailureSince` is set and more than
six hours old, a 417 header and the diagnostic message are written and —
with no early return — the success payload is appended; otherwise the
payload alone with the implicit 200. -/
def respondWithState (url : String) (now : Nat) (s2 : SysState)
    (spawned : Bool) : HandlerResult :=
  match lookupA s2.info url with
  | none => ⟨⟨202, ""⟩, s2, spawned⟩
  | some feed =>
    if feed.FailureSince ≠ 0 ∧ sixHours < now - feed.FailureSince then
      ⟨⟨417, staleMsg ++ feedPayload feed⟩, s2, spawned⟩
    else
      ⟨⟨200, feedPayload feed⟩, s2, spawned⟩

/-- Function `feedInfoHandler`: 400 on a missing or empty `url` parameter; for an
untracked url, 404 when the liveness probe fails, 402 with the list of
tracked urls when the registry holds `FeedsLimit` feeds, and otherwise a
worker is spawned; in the admitted and already-tracked cases
`updaters[url]` is stamped with `now` and the cached state is served. -/
def feedInfoHandler (urlParam : Option String) (liveProbe : FetchResult)
    (now : Nat) (s : SysState) : GoResult HandlerResult :=
  match urlParam with
  | none => .value ⟨⟨400, ""⟩, s, false⟩
  | some url =>
    if url = "" then .value ⟨⟨400, ""⟩, s, false⟩
    else
      match lookupA s.updaters url with
      | some _ =>
        .value (respondWithState url now ⟨s.info, insertA s.updaters url now⟩ false)
      | none =>
        match feedIsAlive liveProbe with
        | .panicked => .panicked
        | .value alive =>
          if alive = false then .value ⟨⟨404, ""⟩, s, false⟩
          else if FeedsLimit ≤ s.updaters.length then
            .value ⟨⟨402, limitBody s.updaters⟩, s, false⟩
          else
            .value (respondWithState url now ⟨s.info, insertA s.updaters url now⟩ true)

/-- The state after a handler call; a panicking handler goroutine has
written nothing to the shared maps, so the state is unchanged. -/
def handlerNext (urlParam : Option String) (liveProbe : FetchResult)
    (now : Nat) (s : SysState) : SysState :=
  match feedInfoHandler urlParam liveProbe now s with
  | .panicked => s
  | .value r => r.state

/-- One atomic transition of the system: a handler invocation or a worker
tick, each with arbitrary oracle inputs.  Every behaviour of the program
is covered (any url may tick, any fetch outcome may occur). -/
inductive Step : SysState → SysState → Prop
  | handler (urlParam : Option String) (liveProbe : FetchResult) (now : Nat)
      (s : SysState) : Step s (handlerNext urlParam liveProbe now s)
  | worker (url : String) (statFetch : FetchResult) (archive : ArchiveFetch)
      (now : Nat) (s : SysState) : Step s (workerTick url statFetch archive now s).2

/-- The initial state: both global maps start empty. -/
def sysInit : SysState := ⟨[], []⟩

/-- States reachable from the initial state by handler and worker steps. -/
inductive Reachable : SysState → Prop
  | start : Reachable sysInit
  | step {s t : SysState} : Reachable s → Step s t → Reachable t

/-- A stat probe oracle for a live feed with size marker `"9"`. -/
def probeAlive : FetchResult := .response 200 "size:9 bytes"

/-- One handler call for url `u` against a live probe at time `0`,
used to build concrete reachable states. -/
def admitStep (s : SysState) (u : String) : SysState :=
  handlerNext (some u) probeAlive 0 s

/-- Thirty-two distinct feed urls. -/
def urls32 : List String := (List.range 32).map fun i => "u" ++ toString i

/-- The state reached after admitting thirty-two distinct live feeds. -/
def reach32 : SysState := urls32.foldl admitStep sysInit

/-- A one-feed map whose stored entry has size marker `"100"` and a clear
failure time. -/
def feedsW1 : List (String × FeedInfo) := [("u", ⟨"size:100 bytes", "100", 3, 0⟩)]

/-- A one-feed map whose stored entry has size marker `"100"` and a
failure time already set (`7`). -/
def feedsC7 : List (String × FeedInfo) := [("u", ⟨"old stat", "100", 3, 7⟩)]

/-- An archive oracle delivering two `vacancy` elements cleanly. -/
def archTwo : ArchiveFetch :=
  .stream [.startElement "vacancy", .startElement "vacancy"] false

/-- A state tracking feed `"u"` with healthy cached state. -/
def stateTracked : SysState := ⟨[("u", ⟨"s", "100", 3, 0⟩)], [("u", 0)]⟩

/-- A state tracking feed `"u"` whose cached state has `FailureSince = 1`. -/
def stateFailing : SysState := ⟨[("u", ⟨"sz", "100", 3, 1⟩)], [("u", 5)]⟩

/-! ### Association-list lemmas -/

theorem lookupA_mem {α : Type} {m : List (String × α)} {k : String} {v : α}
    (h : lookupA m k = some v) : (k, v) ∈ m := by
  induction m with
  | nil => simp [lookupA] at h
  | cons p t ih =>
    obtain ⟨a, b⟩ := p
    simp only [lookupA] at h
    split at h
    · rename_i ha
      obtain rfl := Option.some.inj h
      subst ha
      exact List.mem_cons_self _ _
    · exact List.mem_cons_of_mem _ (ih h)

theorem mem_insertA {α : Type} {m : List (String × α)} {k : String} {v : α}
    {p : String × α} (h : p ∈ insertA m k v) : p = (k, v) ∨ p ∈ m := by
  induction m with
  | nil =>
    simp [insertA] at h
    exact Or.inl h
  | cons q t ih =>
    obtain ⟨a, b⟩ := q
    simp only [insertA] at h
    split at h
    · rcases List.mem_cons.mp h with h1 | h1
      · exact Or.inl h1
      · exact Or.inr (List.mem_cons_of_mem _ h1)
    · rcases List.mem_cons.mp h with h1 | h1
      · exact Or.inr (h1 ▸ List.mem_cons_self _ _)
      · rcases ih h1 with h2 | h2
        · exact Or.inl h2
        · exact Or.inr (List.mem_cons_of_mem _ h2)

theorem mem_eraseA {α : Type} {m : List (String × α)} {k : String}
    {p : String × α} (h : p ∈ eraseA m k) : p ∈ m := by
  induction m with
  | nil => simp [eraseA] at h
  | cons q t ih =>
    obtain ⟨a, b⟩ := q
    simp only [eraseA] at h
    split at h
    · exact List.mem_cons_of_mem _ (ih h)
    · rcases List.mem_cons.mp h with h1 | h1
      · exact h1 ▸ List.mem_cons_self _ _
      · exact List.mem_cons_of_mem _ (ih h1)

theorem length_insertA_of_none {α : Type} {m : List (String × α)} {k : String}
    (v : α) (h : lookupA m k = none) : (insertA m k v).length = m.length + 1 := by
  induction m with
  | nil => simp [insertA]
  | cons q t ih =>
    obtain ⟨a, b⟩ := q
    simp only [lookupA] at h
    split at h
    · exact absurd h (by simp)
    · rename_i ha
      simp only [insertA, if_neg ha, List.length_cons]
      rw [ih h]

theorem length_insertA_of_some {α : Type} {m : List (String × α)} {k : String}
    {w : α} (v : α) (h : lookupA m k = some w) : (insertA m k v).length = m.length := by
  induction m with
  | nil => simp [lookupA] at h
  | cons q t ih =>
    obtain ⟨a, b⟩ := q
    simp only [lookupA] at h
    split at h
    · rename_i ha
      simp [insertA, ha]
    · rename_i ha
      simp only [insertA, if_neg ha, List.length_cons]
      rw [ih h]

theorem length_eraseA_le {α : Type} (m : List (String × α)) (k : String) :
    (eraseA m k).length ≤ m.length := by
  induction m with
  | nil => simp [eraseA]
  | cons q t ih =>
    obtain ⟨a, b⟩ := q
    simp only [eraseA]
    split
    · exact Nat.le_succ_of_le ih
    · simpa using ih

theorem lookupA_insertA_self {α : Type} (m : List (String × α)) (k : String) (v : α) :
    lookupA (insertA m k v) k = some v := by
  induction m with
  | nil => simp [insertA, lookupA]
  | cons q t ih =>
    obtain ⟨a, b⟩ := q
    simp only [insertA]
    split
    · simp [lookupA]
    · rename_i ha
      simpa [lookupA, ha] using ih

/-! ### Structural lemmas about the embedded operations -/

theorem respondWithState_state (url : String) (now : Nat) (s2 : SysState)
    (b : Bool) : (respondWithState url now s2 b).state = s2 := by
  unfold respondWithState
  split
  · rfl
  · split <;> rfl

/-- Function `updateInfoIfNeed` either leaves the map unchanged or replaces the
entry for `url` with a fresh triple drawn from one probe and one count. -/
theorem update_feeds_cases (url : String) (feeds : List (String × FeedInfo))
    (sf : FetchResult) (af : ArchiveFetch) :
    (updateInfoIfNeed url feeds sf af).feeds = feeds ∨
    ∃ size stat vc, getFeedSize sf = .value (size, stat) ∧ size ≠ "" ∧
      countVacancies af = .ok vc ∧
      (updateInfoIfNeed url feeds sf af).feeds = insertA feeds url ⟨stat, size, vc, 0⟩ := by
  unfold updateInfoIfNeed
  cases hg : getFeedSize sf with
  | panicked => exact Or.inl rfl
  | value pr =>
    obtain ⟨size, stat⟩ := pr
    by_cases hsz : size = ""
    · simp [hsz]
    · simp only [if_neg hsz]
      cases hl : lookupA feeds url with
      | some fi =>
        by_cases hfi : fi.Size = size
        · simp [hfi]
        · simp only [if_neg hfi]
          cases hc : countVacancies af with
          | error e => exact Or.inl rfl
          | ok vc => exact Or.inr ⟨size, stat, vc, rfl, hsz, rfl, rfl⟩
      | none =>
        cases hc : countVacancies af with
        | error e => exact Or.inl rfl
        | ok vc => exact Or.inr ⟨size, stat, vc, rfl, hsz, rfl, rfl⟩

/-- When `updateInfoIfNeed` does not report success, the map is untouched. -/
theorem update_not_succeeded_feeds {url : String} {feeds : List (String × FeedInfo)}
    {sf : FetchResult} {af : ArchiveFetch}
    (h : (updateInfoIfNeed url feeds sf af).outcome ≠ .succeeded) :
    (updateInfoIfNeed url feeds sf af).feeds = feeds := by
  unfold updateInfoIfNeed at *
  cases hg : getFeedSize sf with
  | panicked => rfl
  | value pr =>
    obtain ⟨size, stat⟩ := pr
    rw [hg] at h
    by_cases hsz : size = ""
    · simp [hsz]
    · simp only [if_neg hsz] at h ⊢
      cases hl : lookupA feeds url with
      | some fi =>
        rw [hl] at h
        by_cases hfi : fi.Size = size
        · simp [hfi] at h
        · simp only [if_neg hfi] at h ⊢
          cases hc : countVacancies af with
          | error e => rfl
          | ok vc => rw [hc] at h; simp at h
      | none =>
        rw [hl] at h
        cases hc : countVacancies af with
        | error e => rfl
        | ok vc => rw [hc] at h; simp at h

/-- Every non-panicking handler call leaves `info` untouched, and touches
`updaters` only by stamping one url — and stamps a fresh url only below
the capacity limit. -/
theorem handler_state_spec (up : Option String) (pr : FetchResult) (now : Nat)
    (s : SysState) (r : HandlerResult) (h : feedInfoHandler up pr now s = .value r) :
    r.state.info = s.info ∧
    (r.state.updaters = s.updaters ∨
     ∃ url, r.state.updaters = insertA s.updaters url now ∧
       (lookupA s.updaters url ≠ none ∨ s.updaters.length < FeedsLimit)) := by
  unfold feedInfoHandler at h
  split at h
  · injection h with h
    subst h
    exact ⟨rfl, Or.inl rfl⟩
  · rename_i url
    split at h
    · injection h with h
      subst h
      exact ⟨rfl, Or.inl rfl⟩
    · split at h
      · rename_i x heq
        injection h with h
        subst h
        rw [respondWithState_state]
        exact ⟨rfl, Or.inr ⟨url, rfl, Or.inl (by simp [heq])⟩⟩
      · rename_i heq
        split at h
        · simp at h
        · rename_i alive
          split at h
          · injection h with h
            subst h
            exact ⟨rfl, Or.inl rfl⟩
          · split at h
            · injection h with h
              subst h
              exact ⟨rfl, Or.inl rfl⟩
            · rename_i hcap
              injection h with h
              subst h
              rw [respondWithState_state]
              exact ⟨rfl, Or.inr ⟨url, rfl, Or.inr (Nat.lt_of_not_le hcap)⟩⟩

/-- One step preserves the capacity bound on the tracking registry. -/
theorem updaters_le_step {s t : SysState} (hst : Step s t)
    (ih : s.updaters.length ≤ FeedsLimit) : t.updaters.length ≤ FeedsLimit := by
  cases hst with
  | handler up pr now =>
    unfold handlerNext
    cases hh : feedInfoHandler up pr now s with
    | panicked => exact ih
    | value r =>
      obtain ⟨-, h2⟩ := handler_state_spec up pr now s r hh
      rcases h2 with h2 | ⟨url, h2, h3⟩
      · rw [h2]; exact ih
      · rcases h3 with h3 | h3
        · obtain ⟨w, hw⟩ := Option.ne_none_iff_exists'.mp h3
          rw [h2, length_insertA_of_some now hw]
          exact ih
        · cases hl : lookupA s.updaters url with
          | none => rw [h2, length_insertA_of_none now hl]; exact h3
          | some w => rw [h2, length_insertA_of_some now hl]; exact ih
  | worker url sf af now =>
    unfold workerTick
    cases hu : updateInfoIfNeed url s.info sf af with
    | mk o f2 ci =>
      cases o with
      | panicked => exact ih
      | failed => exact ih
      | succeeded =>
        dsimp only
        split
        · exact le_trans (length_eraseA_le _ _) ih
        · exact ih

/-- One step preserves the all-stored-failure-times-are-zero invariant. -/
theorem info_zero_step {s t : SysState} (hst : Step s t)
    (ih : ∀ p ∈ s.info, (Prod.snd p).FailureSince = 0) :
    ∀ p ∈ t.info, (Prod.snd p).FailureSince = 0 := by
  cases hst with
  | handler up pr now =>
    unfold handlerNext
    cases hh : feedInfoHandler up pr now s with
    | panicked => exact ih
    | value r =>
      obtain ⟨h1, -⟩ := handler_state_spec up pr now s r hh
      rw [h1]
      exact ih
  | worker url sf af now =>
    have hcases := update_feeds_cases url s.info sf af
    unfold workerTick
    cases hu : updateInfoIfNeed url s.info sf af with
    | mk o f2 ci =>
      rw [hu] at hcases
      dsimp only at hcases
      have hf2 : ∀ p ∈ f2, (Prod.snd p).FailureSince = 0 := by
        rcases hcases with h1 | ⟨size, stat, vc, -, -, -, h1⟩
        · rw [h1]; exact ih
        · rw [h1]
          intro p hp
          rcases mem_insertA hp with h2 | h2
          · rw [h2]
          · exact ih p h2
      cases o with
      | panicked => exact hf2
      | failed => exact hf2
      | succeeded =>
        dsimp only
        split
        · intro p hp
          exact hf2 p (mem_eraseA hp)
        · exact hf2

/-- In every reachable state at most `FeedsLimit` feeds are tracked. -/
theorem reachable_updaters_le {s : SysState} (h : Reachable s) :
    s.updaters.length ≤ FeedsLimit := by
  induction h with
  | start => simp [sysInit]
  | step hr hst ih => exact updaters_le_step hst ih

/-- In every reachable state every stored `FeedInfo` has the zero
`FailureSince`: the worker's failure path mutates only a local copy. -/
theorem reachable_info_zero {s : SysState} (h : Reachable s) :
    ∀ p ∈ s.info, (Prod.snd p).FailureSince = 0 := by
  induction h with
  | start => simp [sysInit]
  | step hr hst ih => exact info_zero_step hst ih

/-- The tail of the handler never answers 417 over an `info` map whose
stored failure times are all zero. -/
theorem respondWithState_not_417 (url : String) (now : Nat) (s2 : SysState) (b : Bool)
    (hz : ∀ p ∈ s2.info, (Prod.snd p).FailureSince = 0) :
    (respondWithState url now s2 b).response.status ≠ 417 := by
  unfold respondWithState
  cases hl : lookupA s2.info url with
  | none =>
    dsimp only
    decide
  | some feed =>
    dsimp only
    have h0 : feed.FailureSince = 0 := hz (url, feed) (lookupA_mem hl)
    rw [if_neg]
    · dsimp only
      decide
    · simp [h0]

/-- Over an `info` map whose stored failure times are all zero, no handler
answer carries status 417. -/
theorem handler_not_417 (up : Option String) (pr : FetchResult) (now : Nat)
    (s : SysState) (r : HandlerResult) (h : feedInfoHandler up pr now s = .value r)
    (hz : ∀ p ∈ s.info, (Prod.snd p).FailureSince = 0) :
    r.response.status ≠ 417 := by
  unfold feedInfoHandler at h
  split at h
  · injection h with h
    subst h
    dsimp only
    decide
  · rename_i url
    split at h
    · injection h with h
      subst h
      dsimp only
      decide
    · split at h
      · injection h with h
        subst h
        exact respondWithState_not_417 url now _ false hz
      · split at h
        · simp at h
        · split at h
          · injection h with h
            subst h
            dsimp only
            decide
          · split at h
            · injection h with h
              subst h
              dsimp only
              decide
            · injection h with h
              subst h
              exact respondWithState_not_417 url now _ true hz

/-- Admitting any list of feeds through the handler keeps the state
reachable. -/
theorem foldl_admit_reachable (us : List String) (s : SysState) (h : Reachable s) :
    Reachable (us.foldl admitStep s) := by
  induction us generalizing s with
  | nil => exact h
  | cons u t ih =>
    exact ih _ (Reachable.step h (Step.handler (some u) probeAlive 0 s))

/-- The 32-feed state is reachable. -/
theorem reach32_reachable : Reachable reach32 :=
  foldl_admit_reachable urls32 sysInit Reachable.start

/-! ### Claim theorems -/

/-- C1: For every feed whose stat probe succeeds and returns a size marker
equal to the size marker already stored for that feed, `updateInfoIfNeed`
succeeds without invoking the Archive Counter (`countVacancies`), and the
stored `VacanciesCount`, `Stat` and `Size` remain equal to their prior
values (the map is returned unchanged). -/
theorem unchanged_size_skips_count (url : String) (feeds : List (String × FeedInfo))
    (sf : FetchResult) (af : ArchiveFetch) (fi : FeedInfo) (stat : String)
    (hmem : lookupA feeds url = some fi)
    (hprobe : getFeedSize sf = .value (fi.Size, stat))
    (hne : fi.Size ≠ "") :
    updateInfoIfNeed url feeds sf af = ⟨.succeeded, feeds, false⟩ ∧
    lookupA (updateInfoIfNeed url feeds sf af).feeds url = some fi := by
  unfold updateInfoIfNeed
  rw [hprobe]
  dsimp only
  rw [if_neg hne, hmem]
  dsimp only
  rw [if_pos rfl]
  exact ⟨rfl, hmem⟩

/-- C1 witness: a concrete feed with stored size marker `"100"` probed
again at `"100"`. -/
theorem unchanged_size_skips_count_witness :
    updateInfoIfNeed "u" feedsW1 (.response 200 "size:100 bytes") .badGzip =
      ⟨.succeeded, feedsW1, false⟩ ∧
    lookupA (updateInfoIfNeed "u" feedsW1 (.response 200 "size:100 bytes") .badGzip).feeds "u" =
      some ⟨"size:100 bytes", "100", 3, 0⟩ :=
  unchanged_size_skips_count "u" feedsW1 (.response 200 "size:100 bytes") .badGzip
    ⟨"size:100 bytes", "100", 3, 0⟩ "size:100 bytes" (by decide) (by decide) (by decide)

/-- C2: in every reachable state at most 32 feeds are tracked, and a
lookup for an untracked, live feed while 32 are tracked answers 402 with
the header line and every tracked url on its own line, leaving the state
unchanged and spawning no worker. -/
theorem feeds_limit_invariant_and_rejection (s : SysState) (h : Reachable s) :
    s.updaters.length ≤ FeedsLimit ∧
    ∀ url probe now, url ≠ "" → lookupA s.updaters url = none →
      feedIsAlive probe = .value true → FeedsLimit ≤ s.updaters.length →
      feedInfoHandler (some url) probe now s =
        .value ⟨⟨402, limitBody s.updaters⟩, s, false⟩ := by
  refine ⟨reachable_updaters_le h, ?_⟩
  intro url probe now hu hl ha hcap
  unfold feedInfoHandler
  dsimp only
  rw [if_neg hu, hl]
  dsimp only
  rw [ha]
  dsimp only
  rw [if_neg (by decide), if_pos hcap]

/-- C2 witness: the concrete reachable state holding 32 feeds rejects a
33rd. -/
theorem feeds_limit_witness :
    reach32.updaters.length ≤ FeedsLimit ∧
    feedInfoHandler (some "z") probeAlive 7 reach32 =
      .value ⟨⟨402, limitBody reach32.updaters⟩, reach32, false⟩ :=
  ⟨(feeds_limit_invariant_and_rejection reach32 reach32_reachable).1,
   (feeds_limit_invariant_and_rejection reach32 reach32_reachable).2 "z" probeAlive 7
     (by decide) (by decide) (by decide) (by decide)⟩

/-- C3: the stat probe is not total.  On a transport error and on a
non-success status it does return the empty size marker, but on a
success-status body in which the pattern cannot be located it panics
(`FindSubmatch` returns nil and the code indexes it), contradicting the
claim that it never panics. -/
theorem getFeedSize_panics_on_missing_marker :
    getFeedSize (.response 200 "hello") = .panicked ∧
    getFeedSize .transportError = .value ("", "") ∧
    getFeedSize (.response 503 "size:1 bytes") = .value ("", "") ∧
    getFeedSize (.readError 200 "part") = .value ("", "part") := by decide

/-- C4: every `updateInfoIfNeed` call either fully replaces the stored
entry with the triple of a single successful refresh or leaves the map
unchanged; in particular an unreachable probe or a failing count leaves
it untouched. -/
theorem update_all_or_nothing (url : String) (feeds : List (String × FeedInfo))
    (sf : FetchResult) (af : ArchiveFetch) :
    ((updateInfoIfNeed url feeds sf af).feeds = feeds ∨
     ∃ size stat vc, getFeedSize sf = .value (size, stat) ∧ size ≠ "" ∧
       countVacancies af = .ok vc ∧
       (updateInfoIfNeed url feeds sf af).feeds = insertA feeds url ⟨stat, size, vc, 0⟩) ∧
    (∀ stat, getFeedSize sf = .value ("", stat) →
      (updateInfoIfNeed url feeds sf af).feeds = feeds) ∧
    ((∃ e, countVacancies af = .error e) →
      (updateInfoIfNeed url feeds sf af).feeds = feeds) := by
  refine ⟨update_feeds_cases url feeds sf af, ?_, ?_⟩
  · intro stat hg
    unfold updateInfoIfNeed
    rw [hg]
    dsimp only
    rw [if_pos rfl]
  · rintro ⟨e, he⟩
    rcases update_feeds_cases url feeds sf af with h1 | ⟨size, stat, vc, -, -, hok, -⟩
    · exact h1
    · rw [he] at hok
      exact absurd hok (by simp)

/-- C4 witness: an unreachable probe leaves an empty map untouched. -/
theorem update_all_or_nothing_witness :
    (updateInfoIfNeed "u" [] .transportError .badGzip).feeds = [] :=
  (update_all_or_nothing "u" [] .transportError .badGzip).2.1 "" (by decide)

/-- C5: a failing worker tick at time 42 over a tracked feed whose stored
`FailureSince` is zero continues the loop but leaves the stored
`FailureSince` at zero — the Go code sets it on a local copy of the map
value and never writes the copy back, so the failure time the claim
requires is not recorded. -/
theorem failure_not_recorded_in_store :
    workerTick "u" .transportError .badGzip 42 stateTracked = (.continues, stateTracked) ∧
    (lookupA stateTracked.info "u").map FeedInfo.FailureSince = some 0 ∧
    (lookupA (workerTick "u" .transportError .badGzip 42 stateTracked).2.info "u").map
      FeedInfo.FailureSince = some 0 := by decide

/-- C6: a lookup of a tracked feed whose cached `FailureSince` is set and
more than six hours old answers 417, and the body is the diagnostic
message with the success payload appended after it. -/
theorem stale_lookup_417_appends_payload (url : String) (probe : FetchResult)
    (now t0 : Nat) (s : SysState) (fi : FeedInfo)
    (hurl : url ≠ "")
    (htr : lookupA s.updaters url = some t0)
    (hinfo : lookupA s.info url = some fi)
    (hfs : fi.FailureSince ≠ 0)
    (hold : sixHours < now - fi.FailureSince) :
    feedInfoHandler (some url) probe now s =
      .value ⟨⟨417, staleMsg ++ feedPayload fi⟩,
              ⟨s.info, insertA s.updaters url now⟩, false⟩ := by
  unfold feedInfoHandler
  dsimp only
  rw [if_neg hurl, htr]
  dsimp only
  unfold respondWithState
  dsimp only
  rw [hinfo]
  dsimp only
  rw [if_pos ⟨hfs, hold⟩]

/-- C6 witness: a concrete tracked feed failing since time `1`, looked up
at `sixHours + 2`. -/
theorem stale_lookup_417_witness :
    feedInfoHandler (some "u") .transportError (sixHours + 2) stateFailing =
      .value ⟨⟨417, staleMsg ++ feedPayload ⟨"sz", "100", 3, 1⟩⟩,
              ⟨stateFailing.info, insertA stateFailing.updaters "u" (sixHours + 2)⟩,
              false⟩ :=
  stale_lookup_417_appends_payload "u" .transportError (sixHours + 2) 5 stateFailing
    ⟨"sz", "100", 3, 1⟩ (by decide) (by decide) (by decide) (by decide) (by decide)

/-- C7 counterexample: a tracked feed whose stored `FailureSince` is `7`
is refreshed with an unchanged size marker; `updateInfoIfNeed` reports
success yet the stored `FailureSince` is still `7`, not cleared to zero. -/
theorem unchanged_success_keeps_failing_since :
    (lookupA feedsC7 "u").map FeedInfo.FailureSince = some 7 ∧
    (updateInfoIfNeed "u" feedsC7 (.response 200 "size:100 bytes") .badGzip).outcome =
      .succeeded ∧
    (lookupA (updateInfoIfNeed "u" feedsC7 (.response 200 "size:100 bytes") .badGzip).feeds
      "u").map FeedInfo.FailureSince = some 7 ∧
    (7 : Nat) ≠ 0 := by decide

/-- C7 amended: a success obtained by recomputation (stored size marker
differs) clears the stored `FailureSince` to zero, while a success with
an unchanged size marker leaves the stored `FailureSince` exactly as it
was. -/
theorem clearing_only_on_recompute (url : String) (feeds : List (String × FeedInfo))
    (sf : FetchResult) (af : ArchiveFetch) (fi : FeedInfo) (size stat : String) (vc : Int)
    (hmem : lookupA feeds url = some fi) (_hset : fi.FailureSince ≠ 0) :
    (getFeedSize sf = .value (size, stat) → size ≠ "" → fi.Size ≠ size →
      countVacancies af = .ok vc →
      (updateInfoIfNeed url feeds sf af).outcome = .succeeded ∧
      (lookupA (updateInfoIfNeed url feeds sf af).feeds url).map FeedInfo.FailureSince =
        some 0) ∧
    (getFeedSize sf = .value (fi.Size, stat) → fi.Size ≠ "" →
      (updateInfoIfNeed url feeds sf af).outcome = .succeeded ∧
      (lookupA (updateInfoIfNeed url feeds sf af).feeds url).map FeedInfo.FailureSince =
        some fi.FailureSince) := by
  constructor
  · intro hg hsz hdif hok
    unfold updateInfoIfNeed
    rw [hg]
    dsimp only
    rw [if_neg hsz, hmem]
    dsimp only
    rw [if_neg hdif, hok]
    dsimp only
    rw [lookupA_insertA_self]
    exact ⟨rfl, rfl⟩
  · intro hg hsz
    unfold updateInfoIfNeed
    rw [hg]
    dsimp only
    rw [if_neg hsz, hmem]
    dsimp only
    rw [if_pos rfl]
    dsimp only
    rw [hmem]
    exact ⟨rfl, rfl⟩

/-- C7 amended witness: the feed failing since `7` is refreshed at a new
size marker `"150"`; the recomputation stores a fresh entry whose
`FailureSince` is zero. -/
theorem clearing_only_on_recompute_witness :
    (updateInfoIfNeed "u" feedsC7 (.response 200 "size:150 bytes") archTwo).outcome =
      .succeeded ∧
    (lookupA (updateInfoIfNeed "u" feedsC7 (.response 200 "size:150 bytes") archTwo).feeds
      "u").map FeedInfo.FailureSince = some 0 :=
  (clearing_only_on_recompute "u" feedsC7 (.response 200 "size:150 bytes") archTwo
      ⟨"old stat", "100", 3, 7⟩ "150" "size:150 bytes" 2 (by decide) (by decide)).1
    (by decide) (by decide) (by decide) (by decide)

/-- C8 counterexample: a stream whose tokenization fails partway (the
ended-with-error flag is set after one delivered token) is reported as
the success `ok 1` — the partial count — not as an error. -/
theorem token_error_partial_count_ok :
    countVacancies (.stream [.startElement "vacancy"] true) = .ok 1 := by decide

/-- C8 amended: fetch failures and rejected gzip headers are reported as
errors, but the token loop never reports an error: whatever way the
stream ended, the count of `vacancy` start tags delivered so far is
returned as a success. -/
theorem countVacancies_error_reporting :
    countVacancies .transportError = .error .fetchFailed ∧
    countVacancies .badGzip = .error .gzipFailed ∧
    ∀ ts endedWithError, countVacancies (.stream ts endedWithError) = .ok (countLoop ts) :=
  ⟨rfl, rfl, fun _ _ => rfl⟩

/-- C9: a worker tick whose refresh fails continues the loop with the
state exactly as it was (the idle-termination check is not evaluated);
a tick whose refresh succeeds evaluates it, and when more than six hours
passed since `updaters[url]` it deletes both map entries together and
terminates, otherwise it continues. -/
theorem worker_idle_check_after_success (url : String) (sf : FetchResult)
    (af : ArchiveFetch) (now : Nat) (s : SysState) :
    ((updateInfoIfNeed url s.info sf af).outcome = .failed →
      workerTick url sf af now s = (.continues, s)) ∧
    ((updateInfoIfNeed url s.info sf af).outcome = .succeeded →
      sixHours < now - (lookupA s.updaters url).getD 0 →
      workerTick url sf af now s =
        (.terminated, ⟨eraseA (updateInfoIfNeed url s.info sf af).feeds url,
                       eraseA s.updaters url⟩)) ∧
    ((updateInfoIfNeed url s.info sf af).outcome = .succeeded →
      ¬ sixHours < now - (lookupA s.updaters url).getD 0 →
      workerTick url sf af now s =
        (.continues, ⟨(updateInfoIfNeed url s.info sf af).feeds, s.updaters⟩)) := by
  refine ⟨?_, ?_, ?_⟩
  · intro hfail
    have hfeeds : (updateInfoIfNeed url s.info sf af).feeds = s.info :=
      update_not_succeeded_feeds (by rw [hfail]; intro hc; cases hc)
    unfold workerTick
    rcases hr : updateInfoIfNeed url s.info sf af with ⟨o, f2, ci⟩
    rw [hr] at hfail hfeeds
    dsimp only at hfail hfeeds
    subst hfail
    dsimp only
    rw [hfeeds]
  · intro hsucc hidle
    unfold workerTick
    rcases hr : updateInfoIfNeed url s.info sf af with ⟨o, f2, ci⟩
    rw [hr] at hsucc
    dsimp only at hsucc ⊢
    subst hsucc
    dsimp only
    rw [if_pos hidle]
  · intro hsucc hidle
    unfold workerTick
    rcases hr : updateInfoIfNeed url s.info sf af with ⟨o, f2, ci⟩
    rw [hr] at hsucc
    dsimp only at hsucc ⊢
    subst hsucc
    dsimp only
    rw [if_neg hidle]

/-- C9 witness: a successful refresh at `sixHours + 1` over a feed last
observed at time `0` terminates the worker and deletes both entries. -/
theorem worker_idle_check_witness :
    workerTick "u" (.response 200 "size:100 bytes") .badGzip (sixHours + 1) stateTracked =
      (.terminated, ⟨[], []⟩) :=
  ((worker_idle_check_after_success "u" (.response 200 "size:100 bytes") .badGzip
      (sixHours + 1) stateTracked).2.1 (by decide) (by decide)).trans (by decide)

/-- C10: in every reachable state every stored `FeedInfo` has a zero
`FailureSince` (the worker assigns it on a local copy only), and
consequently no handler answer from a reachable state has status 417. -/
theorem stored_failure_zero_no_417 (s : SysState) (h : Reachable s) :
    (∀ p ∈ s.info, (Prod.snd p).FailureSince = 0) ∧
    (∀ up probe now r, feedInfoHandler up probe now s = .value r →
      r.response.status ≠ 417) := by
  refine ⟨reachable_info_zero h, ?_⟩
  intro up probe now r hr
  exact handler_not_417 up probe now s r hr (reachable_info_zero h)

/-- C10 witness: at the initial state a concrete lookup answers 202, not
417. -/
theorem stored_failure_zero_no_417_witness :
    (⟨⟨202, ""⟩, ⟨[], [("u", 0)]⟩, true⟩ : HandlerResult).response.status ≠ 417 :=
  (stored_failure_zero_no_417 sysInit Reachable.start).2 (some "u") probeAlive 0
    ⟨⟨202, ""⟩, ⟨[], [("u", 0)]⟩, true⟩ (by decide)

end FeedMonitoring
